import Mathlib

/-!
Verification of the reactive cell in `src/Signals/Signal.js` of
SignalCrossCutJS.

The `Signal` class holds a value, an ordered parse pipeline, an ordered
validation pipeline, a `subscriptions` set of observers (a JS `Set`,
which preserves insertion order and is keyed by object identity), and a
per-instance `context` stack of currently executing observers.

Shallow embedding choices:
* JS values are modelled by the inductive `JSVal` (undefined, booleans,
  numbers, strings), with decidable equality standing for JS strict
  equality `===`.
* A parser is `JSVal → Except String JSVal`; throwing in JS is
  `Except.error` carrying the error message.
* A validator is `JSVal → JSVal → JSVal`: it may return any JS value,
  and `write` compares the result against the literal `true` with
  strict inequality (`result !== true`).
* Observers are identified by natural numbers (JS object identity); the
  body of an observer run during notification is abstracted by an
  environment `env : ObserverId → Bool` telling whether its `execute`
  throws, and `write` returns the list of observers it invoked, in
  order, together with the observer whose `execute` threw (if any).
* An effect body `fn` is a state transformer `Signal → Signal × Option String`
  (`some msg` models `fn` throwing), so the push/invoke/pop bracket of
  `createEffect` is stated over arbitrary bodies.
* For claims spanning several cells, `World := CellId → Signal` maps
  cell identifiers to their states, and an effect body is given by the
  list of cells it reads, in order.
-/

namespace SignalSpec

/-- A fragment of JS values; `DecidableEq` models strict equality. -/
inductive JSVal where
  | undef : JSVal
  | bool : Bool → JSVal
  | num : Int → JSVal
  | str : String → JSVal
  deriving DecidableEq

abbrev ObserverId := Nat

/-- Parse stage: returns the parsed value or throws (`Except.error`). -/
abbrev Parser := JSVal → Except String JSVal

/-- Validation stage: called with `(oldValue, newValue)`, may return any value. -/
abbrev Validator := JSVal → JSVal → JSVal

/-- State of a `Signal` instance (constructor of `Signal.js`):
`value`, `validators`, `parsers`, `subscriptions` (a `Set`, kept as an
insertion-ordered duplicate-free list of observer identities) and the
per-instance `context` stack. -/
structure Signal where
  value : JSVal
  validators : List Validator
  parsers : List Parser
  subscriptions : List ObserverId
  context : List ObserverId

/-- `Set.prototype.add`: appends unless the element is already present. -/
def setAdd (l : List ObserverId) (o : ObserverId) : List ObserverId :=
  if o ∈ l then l else l ++ [o]

/-- `Set.prototype.delete`: removes the element, keeping insertion order. -/
def setDelete (l : List ObserverId) (o : ObserverId) : List ObserverId :=
  l.filter (fun x => x ≠ o)

/-- The parse loop of `write` (`Signal.js` lines 27-34): fold the parsers
left to right over the value, stopping at the first stage that throws. -/
def runParsers : List Parser → JSVal → Except String JSVal
  | [], v => Except.ok v
  | p :: ps, v =>
    match p v with
    | Except.ok w => runParsers ps w
    | Except.error e => Except.error e

/-- `this.validators.map(validator => validator(this.value, value))`
(`Signal.js` line 37), with `s.value` the current committed value and
`v` the parsed candidate. -/
def validationResults (s : Signal) (v : JSVal) : List JSVal :=
  s.validators.map (fun validator => validator s.value v)

/-- `validationResults.filter(result => result !== true)` (`Signal.js`
line 38): every verdict that is not strictly the literal `true`. -/
def validationErrors (s : Signal) (v : JSVal) : List JSVal :=
  (validationResults s v).filter (fun result => result ≠ JSVal.bool true)

/-- What `write` sends to `console.error`: the parse error message, or
the full list of validation errors. -/
inductive ErrorReport where
  | parseError : String → ErrorReport
  | validationErrors : List JSVal → ErrorReport
  deriving DecidableEq

/-- The notification loop of `write` (`Signal.js` lines 46-48): invoke
each subscribed observer in set-iteration (insertion) order; if one
throws, the loop aborts and the exception propagates.  Returns the
observers invoked, in order, and the thrower if any. -/
def notify (env : ObserverId → Bool) : List ObserverId → List ObserverId × Option ObserverId
  | [] => ([], none)
  | o :: rest =>
    if env o then ([o], some o)
    else
      let r := notify env rest
      (o :: r.1, r.2)

/-- Outcome of a `write` call: the state after, the observers whose
`execute` was invoked (in order), the observer whose `execute` threw
(its exception propagates to the caller of `write`), and what was
reported on the error channel (`console.error`). -/
structure WriteResult where
  sig : Signal
  invoked : List ObserverId
  thrown : Option ObserverId
  reported : Option ErrorReport

/-- `write(newValue)` (`Signal.js` lines 24-50): parse; on a parse
throw, report and return.  Validate all stages against
`(this.value, value)`, filter verdicts `!== true`; if any, report them
all and return.  Otherwise commit `this.value = value` and notify every
subscription. -/
def Signal.write (s : Signal) (env : ObserverId → Bool) (newValue : JSVal) : WriteResult :=
  match runParsers s.parsers newValue with
  | Except.error msg =>
    { sig := s, invoked := [], thrown := none,
      reported := some (ErrorReport.parseError msg) }
  | Except.ok value =>
    if (validationErrors s value).length > 0 then
      { sig := s, invoked := [], thrown := none,
        reported := some (ErrorReport.validationErrors (validationErrors s value)) }
    else
      { sig := { s with value := value },
        invoked := (notify env s.subscriptions).1,
        thrown := (notify env s.subscriptions).2,
        reported := none }

/-- `read()` (`Signal.js` lines 56-62): take the top of the context
stack (`this.context[this.context.length - 1]`); if it is an observer
(the stack is non-empty), add it to `subscriptions`; return the value. -/
def Signal.read (s : Signal) : Signal × JSVal :=
  match s.context.getLast? with
  | some observer => ({ s with subscriptions := setAdd s.subscriptions observer }, s.value)
  | none => (s, s.value)

/-- `this.context.push(effect)`. -/
def pushContext (s : Signal) (o : ObserverId) : Signal :=
  { s with context := s.context ++ [o] }

/-- `this.context.pop()`. -/
def popContext (s : Signal) : Signal :=
  { s with context := s.context.dropLast }

/-- The `execute` of an effect (`Signal.js` lines 71-76): push the
effect onto the context stack, invoke `fn`, pop.  There is no
`try`/`finally`: when `fn` throws (`some msg`), the exception
propagates and the pop is not executed. -/
def Signal.effectExecute (s : Signal) (o : ObserverId) (fn : Signal → Signal × Option String) :
    Signal × Option String :=
  let s1 := pushContext s o
  match fn s1 with
  | (s2, some e) => (s2, some e)
  | (s2, none) => (popContext s2, none)

/-- `createEffect(fn)` (`Signal.js` lines 69-80): allocate the effect
(identity `o`) and run its `execute` once immediately. -/
def Signal.createEffect (s : Signal) (o : ObserverId) (fn : Signal → Signal × Option String) :
    Signal × Option String :=
  Signal.effectExecute s o fn

/-- `subscribe(fn)` (`Signal.js` lines 87-94): allocate an observer
(fresh identity `o`) wrapping `fn` and add it to `subscriptions`.  The
second component records the observer executions performed by the call
itself, mirroring `WriteResult.invoked`: the source performs none. -/
def Signal.subscribe (s : Signal) (o : ObserverId) : Signal × List ObserverId :=
  ({ s with subscriptions := setAdd s.subscriptions o }, [])

/-- The unsubscribe closure returned by `subscribe`:
`() => this.subscriptions.delete(effect)`. -/
def Signal.unsubscribe (s : Signal) (o : ObserverId) : Signal :=
  { s with subscriptions := setDelete s.subscriptions o }

/-! ### A world of several cells, for effects whose body reads other cells -/

abbrev CellId := Nat

/-- A world maps each cell identity to its `Signal` state. -/
abbrev World := CellId → Signal

/-- Perform `read()` on cell `c` of the world, for its subscription
side effect. -/
def readCell (w : World) (c : CellId) : World :=
  fun d => if d = c then ((w c).read).1 else w d

/-- Run an effect body that reads the listed cells, in order. -/
def runReads (w : World) : List CellId → World
  | [] => w
  | c :: rest => runReads (readCell w c) rest

/-- The world right after `this.context.push(effect)` of cell `c`:
only `c`'s own context stack receives the frame. -/
def pushed (w : World) (c : CellId) (o : ObserverId) : World :=
  fun d => if d = c then pushContext (w d) o else w d

/-- `createEffect` on cell `c` of a world, with a body that reads the
cells in `reads`: push the effect onto `c`'s own context stack, run
the reads, pop `c`'s context stack (the body does not throw here). -/
def createEffectOn (w : World) (c : CellId) (o : ObserverId) (reads : List CellId) : World :=
  fun d =>
    if d = c then popContext (runReads (pushed w c o) reads d)
    else runReads (pushed w c o) reads d

/-! ### Concrete instances used as test vectors -/

/-- A cell with no pipelines, no subscribers, empty context. -/
def baseSig : Signal :=
  { value := JSVal.num 0, validators := [], parsers := [],
    subscriptions := [], context := [] }

/-- A world in which every cell is `baseSig`. -/
def w0 : World := fun _ => baseSig

/-- An effect body that immediately throws. -/
def throwingFn : Signal → Signal × Option String := fun s => (s, some "boom")

/-- An effect body that returns normally and touches nothing. -/
def idFn : Signal → Signal × Option String := fun s => (s, none)

/-- An environment in which no observer throws. -/
def envCalm : ObserverId → Bool := fun _ => false

/-! ### Helper lemmas -/

theorem setAdd_self_mem (l : List ObserverId) (o : ObserverId) : o ∈ setAdd l o := by
  unfold setAdd
  split
  case isTrue h => exact h
  case isFalse h => exact List.mem_append_right l (List.mem_singleton.mpr rfl)

theorem setAdd_of_mem {l : List ObserverId} {o : ObserverId} (h : o ∈ l) :
    setAdd l o = l := by
  unfold setAdd
  simp [h]

theorem setAdd_idem (l : List ObserverId) (o : ObserverId) :
    setAdd (setAdd l o) o = setAdd l o :=
  setAdd_of_mem (setAdd_self_mem l o)

theorem setDelete_of_not_mem {l : List ObserverId} {o : ObserverId} (h : o ∉ l) :
    setDelete l o = l := by
  unfold setDelete
  apply List.filter_eq_self.mpr
  intro a ha
  simp only [ne_eq, decide_eq_true_eq]
  intro hao
  exact h (hao ▸ ha)

theorem setDelete_not_mem (l : List ObserverId) (o : ObserverId) :
    o ∉ setDelete l o := by
  unfold setDelete
  intro h
  have := List.of_mem_filter h
  simp at this

theorem setDelete_append_self {l : List ObserverId} {o : ObserverId} (h : o ∉ l) :
    setDelete (l ++ [o]) o = l := by
  unfold setDelete
  rw [List.filter_append]
  have h1 : l.filter (fun x => x ≠ o) = l := setDelete_of_not_mem h
  have h2 : [o].filter (fun x => x ≠ o) = [] := by simp
  rw [h1, h2, List.append_nil]

theorem notify_no_throw (env : ObserverId → Bool) :
    ∀ l : List ObserverId, (∀ o ∈ l, env o = false) → notify env l = (l, none) := by
  intro l
  induction l with
  | nil => intro _; rfl
  | cons o rest ih =>
    intro h
    unfold notify
    rw [h o (List.mem_cons_self o rest)]
    simp only [Bool.false_eq_true, if_false]
    rw [ih (fun p hp => h p (List.mem_cons_of_mem o hp))]

theorem notify_cons (env : ObserverId → Bool) (o : ObserverId) (rest : List ObserverId) :
    notify env (o :: rest) =
      if env o = true then ([o], some o)
      else (o :: (notify env rest).1, (notify env rest).2) := rfl

theorem notify_split (env : ObserverId → Bool) (bad : ObserverId) (post : List ObserverId)
    (hbad : env bad = true) :
    ∀ pre : List ObserverId, (∀ o ∈ pre, env o = false) →
      notify env (pre ++ bad :: post) = (pre ++ [bad], some bad) := by
  intro pre
  induction pre with
  | nil =>
    intro _
    rw [List.nil_append, notify_cons, if_pos hbad]
    rfl
  | cons o rest ih =>
    intro h
    have ho : env o = false := h o (List.mem_cons_self o rest)
    have hrest := ih (fun p hp => h p (List.mem_cons_of_mem o hp))
    rw [List.cons_append, notify_cons, ho]
    simp only [Bool.false_eq_true, if_false]
    rw [hrest]
    simp

theorem notify_invoked_subset (env : ObserverId → Bool) :
    ∀ (l : List ObserverId) (p : ObserverId), p ∈ (notify env l).1 → p ∈ l := by
  intro l
  induction l with
  | nil => intro p hp; exact absurd hp (by simp [notify])
  | cons o rest ih =>
    intro p hp
    unfold notify at hp
    by_cases ho : env o
    · simp [ho] at hp
      exact hp ▸ List.mem_cons_self o rest
    · simp [ho] at hp
      rcases hp with hp | hp
      · exact hp ▸ List.mem_cons_self o rest
      · exact List.mem_cons_of_mem o (ih p hp)

theorem read_of_empty_context {s : Signal} (h : s.context = []) :
    s.read = (s, s.value) := by
  unfold Signal.read
  rw [h]
  rfl

theorem read_of_last {s : Signal} {o : ObserverId} (h : s.context.getLast? = some o) :
    s.read = ({ s with subscriptions := setAdd s.subscriptions o }, s.value) := by
  unfold Signal.read
  rw [h]

theorem runParsers_eq_foldlM (ps : List Parser) (raw : JSVal) :
    runParsers ps raw = List.foldlM (fun v p => p v) raw ps := by
  induction ps generalizing raw with
  | nil => rfl
  | cons p ps ih =>
    unfold runParsers
    simp only [List.foldlM_cons]
    cases hp : p raw with
    | ok w => exact ih w
    | error e => rfl

theorem dropLast_append_single (l : List ObserverId) (o : ObserverId) :
    (l ++ [o]).dropLast = l := by
  simp

/-! ### Further concrete instances used as witnesses and counterexamples -/

/-- A parse stage that always throws, as `integerParser` does on
non-numeric input. -/
def failParser : Parser := fun _ => Except.error "Invalid integer"

/-- A cell whose single parse stage always throws; one subscriber. -/
def sParseFail : Signal :=
  { value := JSVal.num 10, validators := [], parsers := [failParser],
    subscriptions := [3], context := [] }

/-! ### C1: context-stack bracket of an effect's execute -/

/-- C1, counterexample: `createEffect`'s `execute` has no
`try`/`finally` (`Signal.js` lines 71-76), so when `fn` throws the pop
is skipped: starting from an empty context stack, running an effect
whose body throws terminates by exception yet leaves the stale frame
`[7]` on the stack instead of restoring the empty stack. -/
theorem c1_counterexample_throw_leaves_frame :
    (baseSig.createEffect 7 throwingFn).2 = some "boom" ∧
    (baseSig.createEffect 7 throwingFn).1.context = [7] ∧
    baseSig.context = [] ∧
    (baseSig.createEffect 7 throwingFn).1.context ≠ baseSig.context := by
  refine ⟨rfl, rfl, rfl, ?_⟩
  intro h
  simp [baseSig, Signal.createEffect, Signal.effectExecute, throwingFn, pushContext] at h

/-- C1, amended: the execution of an effect's `execute` pushes the
Observer, invokes `fn`, and pops only on normal return of `fn`.  For a
body `fn` that leaves the context stack as it found it: when `fn`
returns normally the stack is restored to its state before the call;
when `fn` throws, the exception propagates out of `execute` and the
pushed frame remains on the stack (the stack is NOT restored). -/
theorem c1_amended_context_bracket (s : Signal) (o : ObserverId)
    (fn : Signal → Signal × Option String) (s2 : Signal)
    (hctx : s2.context = s.context ++ [o]) :
    (fn (pushContext s o) = (s2, none) →
       (s.createEffect o fn).1.context = s.context ∧
       (s.createEffect o fn).2 = none) ∧
    (∀ e, fn (pushContext s o) = (s2, some e) →
       (s.createEffect o fn).1.context = s.context ++ [o] ∧
       (s.createEffect o fn).2 = some e) := by
  constructor
  · intro h
    simp only [Signal.createEffect, Signal.effectExecute, h]
    refine ⟨?_, trivial⟩
    show s2.context.dropLast = s.context
    rw [hctx]
    exact dropLast_append_single s.context o
  · intro e h
    simp only [Signal.createEffect, Signal.effectExecute, h]
    exact ⟨hctx, trivial⟩

/-- C1, witness: at the concrete cell `baseSig` with a body that
returns normally, the stack is restored. -/
theorem c1_amended_context_bracket_witness :
    (baseSig.createEffect 7 idFn).1.context = baseSig.context ∧
    (baseSig.createEffect 7 idFn).2 = none :=
  (c1_amended_context_bracket baseSig 7 idFn (pushContext baseSig 7) rfl).1 rfl

/-! ### C3: write fully rejects on parse or validation failure -/

/-- C3: when some parse stage throws or some validation stage rejects,
`write` returns normally (no exception to the caller), the whole cell
state — in particular `value` — is unchanged, and no subscribed
observer's `execute` runs; the failure goes to the error channel. -/
theorem c3_write_rejects_atomically (s : Signal) (env : ObserverId → Bool) (raw : JSVal)
    (h : (∃ e, runParsers s.parsers raw = Except.error e) ∨
         (∃ v, runParsers s.parsers raw = Except.ok v ∧ validationErrors s v ≠ [])) :
    (s.write env raw).sig = s ∧ (s.write env raw).invoked = [] ∧
    (s.write env raw).thrown = none ∧ (s.write env raw).reported.isSome = true := by
  rcases h with ⟨e, he⟩ | ⟨v, hv, herr⟩
  · simp only [Signal.write, he]
    refine ⟨?_, ?_, ?_, ?_⟩ <;> trivial
  · have hlen : (validationErrors s v).length > 0 := List.length_pos.mpr herr
    simp only [Signal.write, hv, if_pos hlen]
    refine ⟨?_, ?_, ?_, ?_⟩ <;> trivial

/-- C3, witness: at the concrete cell `sParseFail` (whose single parse
stage throws), a `write` leaves the cell untouched, runs no observer,
throws nothing, and reports the failure. -/
theorem c3_write_rejects_atomically_witness :
    (sParseFail.write envCalm (JSVal.num 5)).sig = sParseFail ∧
    (sParseFail.write envCalm (JSVal.num 5)).invoked = [] ∧
    (sParseFail.write envCalm (JSVal.num 5)).thrown = none ∧
    (sParseFail.write envCalm (JSVal.num 5)).reported.isSome = true :=
  c3_write_rejects_atomically sParseFail envCalm (JSVal.num 5)
    (Or.inl ⟨"Invalid integer", rfl⟩)

/-- `(s.read).2` is always the current value. -/
theorem read_snd (s : Signal) : (s.read).2 = s.value := by
  unfold Signal.read
  cases s.context.getLast? <;> rfl

/-- A cell with three subscribers and no pipelines. -/
def sNotify : Signal :=
  { value := JSVal.num 0, validators := [], parsers := [],
    subscriptions := [1, 2, 3], context := [] }

/-- An environment in which exactly observer 2 throws. -/
def envThrow2 : ObserverId → Bool := fun o => o == 2

/-- A cell whose single validator rejects everything with a message. -/
def rejectValidator : Validator := fun _ _ => JSVal.str "nope"

def sReject : Signal :=
  { value := JSVal.num 0, validators := [rejectValidator], parsers := [],
    subscriptions := [4], context := [] }

/-- Scenario B cell: value 5, no pipelines, one subscribed effect. -/
def sRepeat : Signal :=
  { value := JSVal.num 5, validators := [], parsers := [],
    subscriptions := [0], context := [] }

/-! ### C4: a throwing observer aborts the remaining fan-out after commit -/

/-- C4: when parsing succeeds and validation accepts, but a subscribed
observer throws during notification, the exception propagates out of
`write`, the value remains the newly committed parsed value, every
observer before the thrower (in set-iteration order) has run, the
thrower itself was invoked, and no observer after it runs. -/
theorem c4_observer_throw_partial_notification (s : Signal) (env : ObserverId → Bool)
    (raw v : JSVal) (pre post : List ObserverId) (bad : ObserverId)
    (hp : runParsers s.parsers raw = Except.ok v)
    (hv : validationErrors s v = [])
    (hsubs : s.subscriptions = pre ++ bad :: post)
    (hpre : ∀ o ∈ pre, env o = false)
    (hbad : env bad = true) :
    (s.write env raw).sig.value = v ∧
    (s.write env raw).thrown = some bad ∧
    (s.write env raw).invoked = pre ++ [bad] := by
  have hlen : ¬ (validationErrors s v).length > 0 := by rw [hv]; simp
  simp only [Signal.write, hp, if_neg hlen]
  rw [hsubs, notify_split env bad post hbad pre hpre]
  refine ⟨?_, ?_, ?_⟩ <;> trivial

/-- C4, witness: concrete cell with subscribers `[1, 2, 3]`, observer 2
throwing: value committed, observers 1 and 2 invoked, 3 never runs. -/
theorem c4_observer_throw_partial_notification_witness :
    (sNotify.write envThrow2 (JSVal.num 5)).sig.value = JSVal.num 5 ∧
    (sNotify.write envThrow2 (JSVal.num 5)).thrown = some 2 ∧
    (sNotify.write envThrow2 (JSVal.num 5)).invoked = [1, 2] :=
  c4_observer_throw_partial_notification sNotify envThrow2 (JSVal.num 5) (JSVal.num 5)
    [1] [3] 2 rfl rfl rfl (by decide) rfl

/-! ### C5: an accepted write commits the fully-parsed value -/

/-- C5: for a raw input accepted by every parse stage and every
validation stage, `write` followed by `read` returns the fully-parsed
value, the left-to-right fold of the parse pipeline over the raw input;
an empty parse pipeline commits the raw input as-is, and an empty
validation pipeline rejects nothing. -/
theorem c5_write_read_parsed_fold :
    (∀ (s : Signal) (env : ObserverId → Bool) (raw v : JSVal),
       List.foldlM (fun x p => p x) raw s.parsers = Except.ok v →
       validationErrors s v = [] →
       ((s.write env raw).sig.read).2 = v ∧ (s.write env raw).sig.value = v) ∧
    (∀ (s : Signal) (env : ObserverId → Bool) (raw : JSVal),
       s.parsers = [] → validationErrors s raw = [] →
       (s.write env raw).sig.value = raw) ∧
    (∀ (s : Signal) (v : JSVal), s.validators = [] → validationErrors s v = []) := by
  have key : ∀ (s : Signal) (env : ObserverId → Bool) (raw v : JSVal),
      runParsers s.parsers raw = Except.ok v → validationErrors s v = [] →
      (s.write env raw).sig.value = v := by
    intro s env raw v hp hv
    have hlen : ¬ (validationErrors s v).length > 0 := by rw [hv]; simp
    simp only [Signal.write, hp, if_neg hlen]
  refine ⟨?_, ?_, ?_⟩
  · intro s env raw v hp hv
    have hp' : runParsers s.parsers raw = Except.ok v := by
      rw [runParsers_eq_foldlM]; exact hp
    have hval := key s env raw v hp' hv
    exact ⟨by rw [read_snd]; exact hval, hval⟩
  · intro s env raw hps hv
    have hp' : runParsers s.parsers raw = Except.ok raw := by rw [hps]; rfl
    exact key s env raw raw hp' hv
  · intro s v hvs
    unfold validationErrors validationResults
    rw [hvs]
    rfl

/-- C5, witness: the no-pipeline cell `baseSig` accepts `5`, and
`write` then `read` returns `5`. -/
theorem c5_write_read_parsed_fold_witness :
    ((baseSig.write envCalm (JSVal.num 5)).sig.read).2 = JSVal.num 5 ∧
    (baseSig.write envCalm (JSVal.num 5)).sig.value = JSVal.num 5 :=
  c5_write_read_parsed_fold.1 baseSig envCalm (JSVal.num 5) (JSVal.num 5) rfl rfl

/-! ### C6: validators all see the same pair; all rejections collected -/

/-- C6: when the parse stage succeeds with parsed value `v`, the
verdict list is exactly one verdict per validator, the i-th verdict
being the i-th validator applied to the same pair
`(current committed value, parsed value)` — no validator sees another's
verdict or a partially committed value.  The write commits iff the
collected rejection set is empty, and on rejection all rejection
verdicts are reported together on the error channel. -/
theorem c6_validators_uniform_collect_all (s : Signal) (env : ObserverId → Bool)
    (raw v : JSVal) (hp : runParsers s.parsers raw = Except.ok v) :
    (validationResults s v).length = s.validators.length ∧
    (∀ i : Nat, (validationResults s v)[i]? =
       Option.map (fun (validator : Validator) => validator s.value v) s.validators[i]?) ∧
    (validationErrors s v = [] →
       (s.write env raw).sig.value = v ∧ (s.write env raw).reported = none) ∧
    (validationErrors s v ≠ [] →
       (s.write env raw).sig = s ∧ (s.write env raw).invoked = [] ∧
       (s.write env raw).reported
         = some (ErrorReport.validationErrors (validationErrors s v))) := by
  refine ⟨?_, ?_, ?_, ?_⟩
  · unfold validationResults
    exact List.length_map s.validators _
  · intro i
    unfold validationResults
    exact List.getElem?_map _ _ _
  · intro hv
    have hlen : ¬ (validationErrors s v).length > 0 := by rw [hv]; simp
    simp only [Signal.write, hp, if_neg hlen]
    refine ⟨?_, ?_⟩ <;> trivial
  · intro herr
    have hlen : (validationErrors s v).length > 0 := List.length_pos.mpr herr
    simp only [Signal.write, hp, if_pos hlen]
    refine ⟨?_, ?_, ?_⟩ <;> trivial

/-- C6, witness: the always-rejecting cell `sReject` rejects a write of
`1`, stays unchanged, notifies nobody, and reports the full rejection
list `["nope"]`. -/
theorem c6_validators_uniform_collect_all_witness :
    (sReject.write envCalm (JSVal.num 1)).sig = sReject ∧
    (sReject.write envCalm (JSVal.num 1)).invoked = [] ∧
    (sReject.write envCalm (JSVal.num 1)).reported
      = some (ErrorReport.validationErrors [JSVal.str "nope"]) := by
  have h := (c6_validators_uniform_collect_all sReject envCalm (JSVal.num 1)
    (JSVal.num 1) rfl).2.2.2 (by decide)
  exact ⟨h.1, h.2.1, by rw [h.2.2]; rfl⟩

/-! ### C7: no equality short-circuit -/

/-- C7: a write whose parsed value is indistinguishable from the
current committed value still performs the full commit and
notification: with no observer throwing, every subscribed observer is
invoked, in order, on every accepted write — including a repeated write
of the identical value. -/
theorem c7_no_equality_short_circuit (s : Signal) (env : ObserverId → Bool)
    (raw v : JSVal) (hp : runParsers s.parsers raw = Except.ok v)
    (hv : validationErrors s v = []) (_heq : v = s.value)
    (henv : ∀ o ∈ s.subscriptions, env o = false) :
    (s.write env raw).sig.value = v ∧
    (s.write env raw).invoked = s.subscriptions ∧
    (s.write env raw).thrown = none ∧
    (s.write env raw).reported = none := by
  have hlen : ¬ (validationErrors s v).length > 0 := by rw [hv]; simp
  simp only [Signal.write, hp, if_neg hlen]
  rw [notify_no_throw env s.subscriptions henv]
  refine ⟨?_, ?_, ?_, ?_⟩ <;> trivial

/-- C7, witness (scenario B): `sRepeat` holds `5` with one subscribed
effect; writing the identical `5` again still re-runs the effect. -/
theorem c7_no_equality_short_circuit_witness :
    (sRepeat.write envCalm (JSVal.num 5)).sig.value = JSVal.num 5 ∧
    (sRepeat.write envCalm (JSVal.num 5)).invoked = [0] ∧
    (sRepeat.write envCalm (JSVal.num 5)).thrown = none ∧
    (sRepeat.write envCalm (JSVal.num 5)).reported = none :=
  c7_no_equality_short_circuit sRepeat envCalm (JSVal.num 5) (JSVal.num 5)
    rfl rfl rfl (by decide)

/-- Removing an observer is idempotent: a second `delete` of the same
observer changes nothing. -/
theorem unsubscribe_idem (s : Signal) (o : ObserverId) :
    (s.unsubscribe o).unsubscribe o = s.unsubscribe o := by
  unfold Signal.unsubscribe
  simp only [setDelete_of_not_mem (setDelete_not_mem s.subscriptions o)]

/-! ### C8: read is idempotent -/

/-- C8: `read()` always returns the current value and never changes it;
a second `read()` without an intervening `write` returns the same value
and leaves the state exactly as after the first (the top-of-context
observer is registered at most once, since `subscriptions` is a set);
the context stack is untouched; and with an empty context stack `read`
changes no state at all. -/
theorem c8_read_idempotent (s : Signal) :
    (s.read).2 = s.value ∧
    (s.read).1.value = s.value ∧
    ((s.read).1.read).2 = s.value ∧
    ((s.read).1.read).1 = (s.read).1 ∧
    (s.read).1.context = s.context ∧
    (s.context = [] → (s.read).1 = s) := by
  cases hc : s.context.getLast? with
  | none =>
    have h1 : s.read = (s, s.value) := by unfold Signal.read; rw [hc]
    rw [h1]
    exact ⟨rfl, rfl, read_snd s, by rw [h1], rfl, fun _ => rfl⟩
  | some o =>
    have h1 : s.read = ({ s with subscriptions := setAdd s.subscriptions o }, s.value) := by
      unfold Signal.read
      rw [hc]
    have hc2 : ({ s with subscriptions := setAdd s.subscriptions o } : Signal).context.getLast?
        = some o := hc
    have h2 : ({ s with subscriptions := setAdd s.subscriptions o } : Signal).read
        = ({ s with subscriptions := setAdd (setAdd s.subscriptions o) o }, s.value) := by
      unfold Signal.read
      rw [hc2]
    rw [h1, h2]
    refine ⟨rfl, rfl, rfl, ?_, rfl, ?_⟩
    · rw [setAdd_idem]
    · intro hnil
      rw [hnil] at hc
      cases hc

/-- C8, witness: on the concrete cell `baseSig` (empty context stack),
`read` is a pure getter leaving the state untouched. -/
theorem c8_read_idempotent_witness : (baseSig.read).1 = baseSig :=
  (c8_read_idempotent baseSig).2.2.2.2.2 rfl

/-! ### C9: subscribe registers without running; unsubscribe is idempotent -/

/-- C9: `subscribe` registers a fresh observer without invoking its
function (no execution happens at registration time); the returned
unsubscribe removes exactly that observer, restoring the previous
`subscriptions`; calling unsubscribe again is a no-op leaving the state
unchanged; and after unsubscribing, no `write` ever invokes that
observer again. -/
theorem c9_subscribe_unsubscribe (s : Signal) (o : ObserverId)
    (hfresh : o ∉ s.subscriptions) :
    (s.subscribe o).2 = [] ∧
    (s.subscribe o).1.subscriptions = s.subscriptions ++ [o] ∧
    ((s.subscribe o).1.unsubscribe o).subscriptions = s.subscriptions ∧
    ((s.subscribe o).1.unsubscribe o).unsubscribe o = (s.subscribe o).1.unsubscribe o ∧
    (∀ (env : ObserverId → Bool) (raw : JSVal),
       o ∉ (((s.subscribe o).1.unsubscribe o).write env raw).invoked) := by
  have hadd : setAdd s.subscriptions o = s.subscriptions ++ [o] := by
    unfold setAdd
    rw [if_neg hfresh]
  have hdel : setDelete (setAdd s.subscriptions o) o = s.subscriptions := by
    rw [hadd]
    exact setDelete_append_self hfresh
  refine ⟨rfl, hadd, hdel, unsubscribe_idem _ o, ?_⟩
  intro env raw
  show o ∉ (Signal.write _ env raw).invoked
  cases hp : runParsers (((s.subscribe o).1.unsubscribe o).parsers) raw with
  | error e =>
    simp only [Signal.write, hp]
    exact List.not_mem_nil o
  | ok v =>
    by_cases hl : (validationErrors ((s.subscribe o).1.unsubscribe o) v).length > 0
    · simp only [Signal.write, hp, if_pos hl]
      exact List.not_mem_nil o
    · simp only [Signal.write, hp, if_neg hl]
      intro hmem
      have hsub := notify_invoked_subset env (((s.subscribe o).1.unsubscribe o).subscriptions)
        o hmem
      rw [show ((s.subscribe o).1.unsubscribe o).subscriptions
          = setDelete (setAdd s.subscriptions o) o from rfl, hdel] at hsub
      exact hfresh hsub

/-- C9, witness: on the concrete cell `sRepeat` (subscriptions `[0]`),
subscribing observer `2` and then unsubscribing it restores the
original subscription set. -/
theorem c9_subscribe_unsubscribe_witness :
    ((sRepeat.subscribe 2).1.unsubscribe 2).subscriptions = sRepeat.subscriptions :=
  (c9_subscribe_unsubscribe sRepeat 2 (by decide)).2.2.1

/-! ### C10: acceptance is strict equality with the literal true -/

/-- A validator returning the truthy — but not strictly `true` — value
`1`, as in `newState.age < 0 ? 1 : 1` would. -/
def truthyValidator : Validator := fun _ _ => JSVal.num 1

def sTruthy : Signal :=
  { value := JSVal.num 0, validators := [truthyValidator], parsers := [],
    subscriptions := [5], context := [] }

/-- C10: the verdict of a validation stage is decided by strict
equality with the literal `true` (`result !== true`): any validator
returning a value that is not strictly `true` — including truthy values
such as the number `1` or the string `"true"` — has its verdict
collected as a rejection, and the write aborts with no commit and no
notification, reporting the collected rejections. -/
theorem c10_strict_true_verdict (s : Signal) (env : ObserverId → Bool) (raw v : JSVal)
    (hp : runParsers s.parsers raw = Except.ok v)
    (f : Validator) (hf : f ∈ s.validators) (hne : f s.value v ≠ JSVal.bool true) :
    f s.value v ∈ validationErrors s v ∧
    (s.write env raw).sig = s ∧
    (s.write env raw).invoked = [] ∧
    (s.write env raw).reported
      = some (ErrorReport.validationErrors (validationErrors s v)) := by
  have hmem : f s.value v ∈ validationErrors s v := by
    unfold validationErrors validationResults
    exact List.mem_filter.mpr ⟨List.mem_map.mpr ⟨f, hf, rfl⟩, decide_eq_true hne⟩
  have herr : validationErrors s v ≠ [] := List.ne_nil_of_mem hmem
  have hlen : (validationErrors s v).length > 0 := List.length_pos.mpr herr
  simp only [Signal.write, hp, if_pos hlen]
  refine ⟨hmem, ?_, ?_, ?_⟩ <;> trivial

/-- C10, witness: the cell `sTruthy`, whose validator returns the
truthy number `1`, rejects a write of `3`: the verdict is collected,
the state is unchanged and nobody is notified. -/
theorem c10_strict_true_verdict_witness :
    truthyValidator sTruthy.value (JSVal.num 3) ∈ validationErrors sTruthy (JSVal.num 3) ∧
    (sTruthy.write envCalm (JSVal.num 3)).sig = sTruthy ∧
    (sTruthy.write envCalm (JSVal.num 3)).invoked = [] ∧
    (sTruthy.write envCalm (JSVal.num 3)).reported
      = some (ErrorReport.validationErrors (validationErrors sTruthy (JSVal.num 3))) :=
  c10_strict_true_verdict sTruthy envCalm (JSVal.num 3) (JSVal.num 3) rfl
    truthyValidator (List.mem_singleton.mpr rfl) (by decide)

/-! ### C2: which cells does an effect subscribe to? -/

/-- Reading a cell whose context stack is empty changes the world not
at all (the `if (observer)` guard fails). -/
theorem readCell_of_empty {w : World} {x : CellId} (hx : (w x).context = []) :
    readCell w x = w := by
  funext d
  unfold readCell
  split
  case isTrue hd =>
    subst hd
    simp [read_of_empty_context hx]
  case isFalse hd => rfl

/-- Reading cell `c` while the top of `c`'s own context stack is `o`
registers `o` into `c`'s subscriptions and changes nothing else. -/
theorem readCell_of_last {w : World} {c : CellId} {o : ObserverId}
    (hc : (w c).context.getLast? = some o) :
    readCell w c = fun d =>
      if d = c then { w c with subscriptions := setAdd (w c).subscriptions o }
      else w d := by
  funext d
  unfold readCell
  by_cases hd : d = c
  · subst hd
    rw [if_pos rfl, if_pos rfl, read_of_last hc]
  · rw [if_neg hd, if_neg hd]

/-- Running a sequence of reads while observer `o` sits on top of cell
`c`'s context stack (and every other cell's stack is empty): no cell
other than `c` changes in any way; `c`'s value, pipelines and context
are unchanged; and `o` is added to `c`'s subscriptions exactly when `c`
itself is among the cells read. -/
theorem runReads_spec (c : CellId) (o : ObserverId) :
    ∀ (reads : List CellId) (w : World),
      (∀ d, d ≠ c → (w d).context = []) →
      (w c).context.getLast? = some o →
      (∀ d, d ≠ c → runReads w reads d = w d) ∧
      (runReads w reads c).value = (w c).value ∧
      (runReads w reads c).validators = (w c).validators ∧
      (runReads w reads c).parsers = (w c).parsers ∧
      (runReads w reads c).context = (w c).context ∧
      (runReads w reads c).subscriptions =
        (if c ∈ reads then setAdd (w c).subscriptions o else (w c).subscriptions) := by
  intro reads
  induction reads with
  | nil =>
    intro w _ _
    refine ⟨fun d _ => rfl, rfl, rfl, rfl, rfl, ?_⟩
    rw [if_neg (List.not_mem_nil c)]
    rfl
  | cons x rest ih =>
    intro w hemp hlast
    simp only [runReads]
    by_cases hx : x = c
    · subst hx
      have hcc : readCell w x x
          = { w x with subscriptions := setAdd (w x).subscriptions o } := by
        rw [readCell_of_last hlast]
        exact if_pos rfl
      have hco : ∀ d, d ≠ x → readCell w x d = w d := by
        intro d hd
        rw [readCell_of_last hlast]
        exact if_neg hd
      obtain ⟨hother, hval, hvds, hps, hctx, hsubs⟩ := ih (readCell w x)
        (by intro d hd; rw [hco d hd]; exact hemp d hd)
        (by rw [hcc]; exact hlast)
      rw [hcc] at hval hvds hps hctx hsubs
      refine ⟨?_, hval, hvds, hps, hctx, ?_⟩
      · intro d hd
        rw [hother d hd, hco d hd]
      · rw [hsubs, if_pos (List.mem_cons_self x rest)]
        by_cases hxr : x ∈ rest
        · rw [if_pos hxr]
          exact setAdd_idem (w x).subscriptions o
        · rw [if_neg hxr]
    · rw [readCell_of_empty (hemp x hx)]
      obtain ⟨hother, hval, hvds, hps, hctx, hsubs⟩ := ih w hemp hlast
      refine ⟨hother, hval, hvds, hps, hctx, ?_⟩
      rw [hsubs]
      by_cases hcr : c ∈ rest
      · rw [if_pos hcr, if_pos (List.mem_cons_of_mem x hcr)]
      · have hnc : c ∉ x :: rest := by
          intro hm
          rcases List.mem_cons.mp hm with h1 | h2
          · exact hx h1.symm
          · exact hcr h2
        rw [if_neg hcr, if_neg hnc]

/-- C2, counterexample: in a world where every cell is `baseSig`, an
effect created on cell `0` whose body reads cell `0` and then cell `1`
subscribes observer `7` to cell `0` only: cell `1` — a cell other than
the one the effect was created on, read while the effect's `fn` was
running — ends with an empty `subscriptions` set, because `read` on
cell `1` consults cell `1`'s own (empty) context stack.  This refutes
the claim that every read during an effect subscribes the observer to
the cell being read. -/
theorem c2_counterexample_foreign_cell_not_subscribed :
    (createEffectOn w0 0 7 [0, 1] 0).subscriptions = [7] ∧
    (createEffectOn w0 0 7 [0, 1] 1).subscriptions = [] ∧
    ¬ 7 ∈ (createEffectOn w0 0 7 [0, 1] 1).subscriptions := by
  refine ⟨rfl, rfl, ?_⟩
  intro h
  simp only [show (createEffectOn w0 0 7 [0, 1] 1).subscriptions = [] from rfl] at h
  exact List.not_mem_nil 7 h

/-- C2, amended: because the context stack is a per-cell field, a
`read()` performed while an effect's `fn` runs subscribes the observer
only when the cell being read is the cell the effect was created on
(whose own context stack holds the observer).  For a quiescent world
(no other effect mid-execution): every cell other than the creating
cell is left completely unchanged by `createEffect`; the creating
cell's value and context stack are restored, and the observer is
subscribed to it exactly when `fn` read it. -/
theorem c2_amended_subscribes_only_creating_cell (w : World) (c : CellId) (o : ObserverId)
    (reads : List CellId) (hemp : ∀ d, d ≠ c → (w d).context = []) :
    (∀ d, d ≠ c → createEffectOn w c o reads d = w d) ∧
    (createEffectOn w c o reads c).context = (w c).context ∧
    (createEffectOn w c o reads c).value = (w c).value ∧
    (createEffectOn w c o reads c).subscriptions =
      (if c ∈ reads then setAdd (w c).subscriptions o else (w c).subscriptions) ∧
    (c ∈ reads → o ∈ (createEffectOn w c o reads c).subscriptions) := by
  have hemp1 : ∀ d, d ≠ c → (pushed w c o d).context = [] := by
    intro d hd
    unfold pushed
    rw [if_neg hd]
    exact hemp d hd
  have hlast1 : (pushed w c o c).context.getLast? = some o := by
    unfold pushed
    rw [if_pos rfl]
    show ((w c).context ++ o :: []).getLast? = some o
    rw [List.getLast?_append_cons]
    rfl
  obtain ⟨hother, hval, hvds, hps, hctx, hsubs⟩ :=
    runReads_spec c o reads (pushed w c o) hemp1 hlast1
  have hpc : pushed w c o c = pushContext (w c) o := by
    unfold pushed
    rw [if_pos rfl]
  have hsub2 : (createEffectOn w c o reads c).subscriptions =
      (if c ∈ reads then setAdd (w c).subscriptions o else (w c).subscriptions) := by
    unfold createEffectOn
    rw [if_pos rfl]
    show (runReads (pushed w c o) reads c).subscriptions = _
    rw [hsubs, hpc]
    rfl
  constructor
  · intro d hd
    unfold createEffectOn
    rw [if_neg hd, hother d hd]
    unfold pushed
    rw [if_neg hd]
  refine ⟨?_, ?_, hsub2, ?_⟩
  · unfold createEffectOn
    rw [if_pos rfl]
    show (runReads (pushed w c o) reads c).context.dropLast = (w c).context
    rw [hctx, hpc]
    show ((w c).context ++ [o]).dropLast = (w c).context
    exact dropLast_append_single _ _
  · unfold createEffectOn
    rw [if_pos rfl]
    show (runReads (pushed w c o) reads c).value = (w c).value
    rw [hval, hpc]
    rfl
  · intro hcr
    rw [hsub2, if_pos hcr]
    exact setAdd_self_mem _ _

/-- C2, witness: in the all-`baseSig` world, the effect on cell `0`
reading `[0, 1]` leaves cell `1` exactly as it was. -/
theorem c2_amended_subscribes_only_creating_cell_witness :
    createEffectOn w0 0 7 [0, 1] 1 = w0 1 :=
  (c2_amended_subscribes_only_creating_cell w0 0 7 [0, 1] (fun _ _ => rfl)).1 1 (by decide)

end SignalSpec
